import Mathlib

/-!
Verification of the material-classification and endgame-evaluation subsystem of
Makruk-Stockfish (src/material.cpp, src/endgame.cpp, src/psqt.cpp).

The three translation units are embedded shallowly.  Declarations whose C++
source lives in headers that are not part of the repository snapshot
(types.h, position.h, endgame.h, thread.h, bitboard.h) are modelled from the
specification and are marked with a doc comment starting with
"Modelled from the spec:".
-/

set_option maxHeartbeats 1000000

namespace Makruk

/-- The two sides.  WHITE is tried before BLACK wherever the source iterates
over colors. -/
inductive Color
  | white
  | black
deriving DecidableEq

/-- Modelled from the spec: the color-complement operator (operator~ on Color
in types.h, not in view). -/
def Color.opp : Color → Color
  | .white => .black
  | .black => .white

/-- Makruk piece types in the order used by psqt.cpp's PieceValue arrays:
PAWN, QUEEN (Met), BISHOP (Khon), KNIGHT, ROOK, KING. -/
inductive PieceType
  | pawn
  | queen
  | bishop
  | knight
  | rook
  | king
deriving DecidableEq

/-- Squares 0..63, A1 = 0, B1 = 1, ..., H8 = 63 (rank-major, as in the
source's square tables). -/
abbrev Square := Fin 64

def fileOf (s : Square) : Nat := s.val % 8

def rankOf (s : Square) : Nat := s.val / 8

/-- Modelled from the spec: Chebyshev distance between squares (the external
distance() helper; the spec calls it "(Chebyshev)" explicitly). -/
def dist (a b : Square) : Nat :=
  max (Nat.dist (fileOf a) (fileOf b)) (Nat.dist (rankOf a) (rankOf b))

/-- Modelled from the spec: vertical mirror of a square (operator~ on Square),
which flips the rank and keeps the file. -/
def flipS (s : Square) : Square :=
  ⟨(7 - rankOf s) * 8 + fileOf s, by unfold rankOf fileOf; omega⟩

/-- Modelled from the spec: the same-square-color predicate.  A1 (file+rank
even) is a dark square, matching the source's DarkSquares bitboard. -/
def isDark (s : Square) : Bool := (fileOf s + rankOf s) % 2 == 0

/-- Modelled from the spec: opposite_colors(s1, s2) from bitboard.h. -/
def oppositeColors (a b : Square) : Bool := isDark a != isDark b

def sqA1 : Square := ⟨0, by omega⟩
def sqH1 : Square := ⟨7, by omega⟩
def sqA8 : Square := ⟨56, by omega⟩
def sqH8 : Square := ⟨63, by omega⟩

/-- Modelled from the spec: king attack squares (attacks_from-KING-, used only
by the KNQK smothering check). -/
def kingAttB (s t : Square) : Bool := (s != t) && decide (dist s t ≤ 1)

/-- Modelled from the spec: knight attack squares (attacks_from-KNIGHT-, used
only by the KNQK smothering check; the Makruk knight moves as a chess
knight). -/
def knightAttB (s t : Square) : Bool :=
  let df := Nat.dist (fileOf s) (fileOf t)
  let dr := Nat.dist (rankOf s) (rankOf t)
  (df == 1 && dr == 2) || (df == 2 && dr == 1)

/-- popcount(attacks_from-KING-(lk) and attacks_from-KNIGHT-(nk)) greater than
zero, as tested by the KNQK evaluator. -/
def jointKingKnight (lk nk : Square) : Bool :=
  (List.finRange 64).any (fun t => kingAttB lk t && knightAttB nk t)

/-- Modelled from the spec: the named piece base values per phase, the
sentinel scores and the phase limits.  They are consumed from types.h, which
is not in the repository snapshot; the spec treats them as fixed
configuration data shared with the rest of the engine. -/
structure Vals where
  pawnMg : Int
  pawnEg : Int
  queenMg : Int
  queenEg : Int
  bishopMg : Int
  bishopEg : Int
  knightMg : Int
  knightEg : Int
  rookMg : Int
  rookEg : Int
  knownWin : Int
  mateInMaxPly : Int
  endgameLimit : Int
  midgameLimit : Int
  phaseMidgame : Int
deriving DecidableEq

/-- Modelled from the spec: one concrete choice of the configuration data of
Vals, used only to instantiate witnesses and counterexamples; the exact
numbers are not pinned by the sources in view. -/
def testVals : Vals :=
  { pawnMg := 100, pawnEg := 125
    queenMg := 180, queenEg := 190
    bishopMg := 200, bishopEg := 210
    knightMg := 320, knightEg := 330
    rookMg := 500, rookEg := 520
    knownWin := 10000, mateInMaxPly := 31872
    endgameLimit := 3915, midgameLimit := 15258, phaseMidgame := 128 }

/-- Modelled from the spec: the slice of the external position representation
this subsystem consumes — per-piece-type square lists per color, the two king
squares, the side to move and legal-move availability (the latter used only
by the KXK lone-king stalemate check). -/
structure Position where
  pawns : Color → List Square
  queens : Color → List Square
  bishops : Color → List Square
  knights : Color → List Square
  rooks : Color → List Square
  kingSq : Color → Square
  sideToMove : Color
  hasLegalMoves : Bool

def pieceList (pos : Position) (c : Color) : PieceType → List Square
  | .pawn => pos.pawns c
  | .queen => pos.queens c
  | .bishop => pos.bishops c
  | .knight => pos.knights c
  | .rook => pos.rooks c
  | .king => [pos.kingSq c]

/-- pos.count-Pt-(c). -/
def posCount (pos : Position) (c : Color) (pt : PieceType) : Nat :=
  (pieceList pos c pt).length

/-- Modelled from the spec: pos.square-Pt-(c), the square-of-piece lookup.
It returns the first stored square; it is meaningful only when the side has
exactly one piece of the type (the external accessor asserts that in debug
builds), and the default is garbage when no piece is present. -/
def squareD (pos : Position) (c : Color) (pt : PieceType) : Square :=
  (pieceList pos c pt).headD sqA1

/-- pos.non_pawn_material(c): middlegame piece values of the non-pawn, non-king
pieces (modelled from the spec's "non-pawn material totals per color"). -/
def npm (vals : Vals) (pos : Position) (c : Color) : Int :=
  vals.queenMg * (posCount pos c .queen : Int)
    + vals.bishopMg * (posCount pos c .bishop : Int)
    + vals.knightMg * (posCount pos c .knight : Int)
    + vals.rookMg * (posCount pos c .rook : Int)

/-- Piece-type counts of one side; the material composition identified by a
material key.  Kings are included so that the all-zero record (a zeroed cache
slot) can never collide with the composition of an actual position. -/
structure SideCount where
  pawn : Nat
  queen : Nat
  bishop : Nat
  knight : Nat
  rook : Nat
  king : Nat
deriving DecidableEq

/-- Modelled from the spec: the material key.  The spec describes it as an
opaque hash "uniquely identifying a material composition (piece-type counts
per color), independent of square placement", treated as an
equality-comparable token, so it is embedded as the composition itself. -/
structure MatComp where
  w : SideCount
  b : SideCount
deriving DecidableEq

def MatComp.side (k : MatComp) : Color → SideCount
  | .white => k.w
  | .black => k.b

def sideCountOf (pos : Position) (c : Color) : SideCount :=
  ⟨(pos.pawns c).length, (pos.queens c).length, (pos.bishops c).length,
   (pos.knights c).length, (pos.rooks c).length, 1⟩

/-- pos.material_key(), under the key-is-composition embedding. -/
def materialKey (pos : Position) : MatComp :=
  ⟨sideCountOf pos .white, sideCountOf pos .black⟩

/-- Total piece count of a side, kings included (pos.pieces(c) popcount). -/
def totalS (s : SideCount) : Nat :=
  s.pawn + s.queen + s.bishop + s.knight + s.rook + s.king

/-- non_pawn_material of a composition (same formula as npm). -/
def npmS (vals : Vals) (s : SideCount) : Int :=
  vals.queenMg * (s.queen : Int) + vals.bishopMg * (s.bishop : Int)
    + vals.knightMg * (s.knight : Int) + vals.rookMg * (s.rook : Int)

/-- is_KXK from material.cpp: opponent holds at most the bare king, and our
non-pawn material is at least BishopValueEg + QueenValueEg. -/
def is_KXK (vals : Vals) (k : MatComp) (us : Color) : Bool :=
  !decide (2 ≤ totalS (k.side us.opp))
    && decide (vals.bishopEg + vals.queenEg ≤ npmS vals (k.side us))

/-- is_KQsPsK from material.cpp: opponent bare, we have a queen or a pawn and
no rook, bishop or knight. -/
def is_KQsPsK (k : MatComp) (us : Color) : Bool :=
  !decide (2 ≤ totalS (k.side us.opp))
    && ((k.side us).queen != 0 || (k.side us).pawn != 0)
    && (k.side us).rook == 0
    && (k.side us).bishop == 0
    && (k.side us).knight == 0

/-- is_KXKP from material.cpp. -/
def is_KXKP (vals : Vals) (k : MatComp) (us : Color) : Bool :=
  (k.side us).pawn == 0
    && (k.side us.opp).pawn == 1
    && decide (vals.bishopEg + vals.queenEg
          ≤ npmS vals (k.side us) - npmS vals (k.side us.opp))

/-- is_KXKQ from material.cpp. -/
def is_KXKQ (vals : Vals) (k : MatComp) (us : Color) : Bool :=
  (k.side us).pawn == 0
    && decide (npmS vals (k.side us.opp) = vals.queenMg)
    && (k.side us.opp).queen == 1
    && decide (vals.bishopEg + vals.queenEg
          ≤ npmS vals (k.side us) - npmS vals (k.side us.opp))

/-- is_KXKB from material.cpp. -/
def is_KXKB (vals : Vals) (k : MatComp) (us : Color) : Bool :=
  (k.side us).pawn == 0
    && decide (npmS vals (k.side us.opp) = vals.bishopMg)
    && (k.side us.opp).bishop == 1
    && decide (vals.bishopEg + vals.queenEg
          ≤ npmS vals (k.side us) - npmS vals (k.side us.opp))

/-- is_KXKN from material.cpp. -/
def is_KXKN (vals : Vals) (k : MatComp) (us : Color) : Bool :=
  (k.side us).pawn == 0
    && decide (npmS vals (k.side us.opp) = vals.knightMg)
    && (k.side us.opp).knight == 1
    && decide (vals.bishopEg + vals.queenEg
          ≤ npmS vals (k.side us) - npmS vals (k.side us.opp))

/-- is_KXKR from material.cpp. -/
def is_KXKR (vals : Vals) (k : MatComp) (us : Color) : Bool :=
  (k.side us).pawn == 0
    && decide (npmS vals (k.side us.opp) = vals.rookMg)
    && (k.side us.opp).rook == 1
    && decide (vals.bishopEg + vals.queenEg
          ≤ npmS vals (k.side us) - npmS vals (k.side us.opp))

/-- QuadraticOurs from material.cpp, row-major, lower triangular; slots in the
order Q-pair, Pawn, Queen, Bishop, Knight, Rook. -/
def QuadraticOurs : List (List Int) :=
  [[1000],
   [40, 0],
   [0, 69, -1],
   [0, 104, 33, -105],
   [32, 255, 2, 4, -3],
   [-26, -2, 52, 110, 47, -150]]

/-- QuadraticTheirs from material.cpp. -/
def QuadraticTheirs : List (List Int) :=
  [[0],
   [36, 0],
   [40, 50, 0],
   [59, 65, 25, 0],
   [9, 63, 7, 42, 0],
   [46, 39, -8, -24, 240, 0]]

def qo (i j : Nat) : Int := (QuadraticOurs.getD i []).getD j 0

def qt (i j : Nat) : Int := (QuadraticTheirs.getD i []).getD j 0

/-- Modelled from the spec: pos.queen_pair(c), the synthetic 0/1 piece-pair
indicator occupying the leading (NO_PIECE_TYPE) slot of the imbalance count
vector. -/
def qpair (s : SideCount) : Nat := if 2 ≤ s.queen then 1 else 0

/-- The pieceCount vector built by Material::probe: slot 0 is the queen-pair
indicator, then pawn, queen, bishop, knight, rook counts. -/
def pcVec (k : MatComp) (c : Color) : Nat → Nat
  | 0 => qpair (k.side c)
  | 1 => (k.side c).pawn
  | 2 => (k.side c).queen
  | 3 => (k.side c).bishop
  | 4 => (k.side c).knight
  | 5 => (k.side c).rook
  | _ => 0

/-- The inner loop of imbalance(): for a slot pt1, the sum over pt2 at or
below it of QuadraticOurs x own count + QuadraticTheirs x opponent count. -/
def innerV (k : MatComp) (us : Color) (pt1 : Nat) : Int :=
  ((List.range (pt1 + 1)).map
    (fun pt2 => qo pt1 pt2 * (pcVec k us pt2 : Int)
      + qt pt1 pt2 * (pcVec k us.opp pt2 : Int))).sum

/-- imbalance() from material.cpp: slots with a zero own count are skipped;
otherwise the slot contributes its count times the inner sum. -/
def imbalance (k : MatComp) (us : Color) : Int :=
  ((List.range 6).map
    (fun pt1 => if pcVec k us pt1 = 0 then 0
      else (pcVec k us pt1 : Int) * innerV k us pt1)).sum

/-- The int16_t conversion applied when Material::probe stores the imbalance
fallback (two's-complement wrap to the range -32768..32767). -/
def i16 (x : Int) : Int := (x + 32768) % 65536 - 32768

/-- The phase mapping of Material::probe: total non-pawn material clamped to
the endgame..midgame band and mapped linearly onto 0..PHASE_MIDGAME,
with C truncating division. -/
def gamePhaseOf (vals : Vals) (k : MatComp) : Int :=
  let npmTot := npmS vals k.w + npmS vals k.b
  let npmCl := max vals.endgameLimit (min npmTot vals.midgameLimit)
  Int.tdiv ((npmCl - vals.endgameLimit) * vals.phaseMidgame)
    (vals.midgameLimit - vals.endgameLimit)

/-- The exact material signatures registered by Endgames::Endgames() in
endgame.cpp: KNNK, KNK, KBK ("KSK"), KQQK ("KMMK"), KBQK ("KSMK"),
KNQK ("KNMK"). -/
inductive RegKind
  | KNNK
  | KNK
  | KBK
  | KQQK
  | KBQK
  | KNQK
deriving DecidableEq

def bareSide : SideCount := ⟨0, 0, 0, 0, 0, 1⟩

/-- The strong-side composition each registered signature denotes. -/
def regPattern : RegKind → SideCount
  | .KNNK => ⟨0, 0, 0, 2, 0, 1⟩
  | .KNK => ⟨0, 0, 0, 1, 0, 1⟩
  | .KBK => ⟨0, 0, 1, 0, 0, 1⟩
  | .KQQK => ⟨0, 2, 0, 0, 0, 1⟩
  | .KBQK => ⟨0, 1, 1, 0, 0, 1⟩
  | .KNQK => ⟨0, 1, 0, 1, 0, 1⟩

def regKinds : List RegKind := [.KNNK, .KNK, .KBK, .KQQK, .KBQK, .KNQK]

/-- One registered signature matched against a composition: Endgames::add
inserts the keys of both color orientations (strong side WHITE and BLACK). -/
def registryMatch (k : MatComp) (rk : RegKind) : Option Color :=
  if k.w = regPattern rk ∧ k.b = bareSide then some .white
  else if k.b = regPattern rk ∧ k.w = bareSide then some .black
  else none

def findReg : List RegKind → MatComp → Option (RegKind × Color)
  | [], _ => none
  | rk :: rest, k =>
    match registryMatch k rk with
    | some c => some (rk, c)
    | none => findReg rest k

/-- Modelled from the spec: endgames.probe-Value-(key), the exact-match lookup
in the Value-kind registry built once at startup. -/
def registryValue (k : MatComp) : Option (RegKind × Color) :=
  findReg regKinds k

/-- Scale-factor evaluator references.  Endgames::Endgames() registers only
Value-kind evaluators, so this type is uninhabited. -/
inductive ScaleRef

instance : DecidableEq ScaleRef := fun a _ => by cases a

/-- Modelled from the spec: endgames.probe-ScaleFactor-(key).  The registry
constructor in endgame.cpp registers no ScaleFactor-kind evaluator, so the
lookup never succeeds. -/
def registryScale (_ : MatComp) : Option (ScaleRef × Color) := none

/-- A reference to an attached Value-kind evaluator: one of the seven
classifier-bound generic evaluator arrays of material.cpp, or a registered
exact-signature evaluator, each bound to a strong-side color. -/
inductive EvalRef
  | kxk (c : Color)
  | kqspsk (c : Color)
  | kxkp (c : Color)
  | kxkq (c : Color)
  | kxkb (c : Color)
  | kxkn (c : Color)
  | kxkr (c : Color)
  | registered (rk : RegKind) (c : Color)
deriving DecidableEq

/-- Material::Entry (material.h is not in view; fields per the spec's data
model: validation key, generic value, game phase, per-color scale factor, an
optional Value evaluator and optional per-color scaling evaluators). -/
structure Entry where
  key : MatComp
  value : Int
  gamePhase : Int
  factorW : Nat
  factorB : Nat
  evaluationFunction : Option EvalRef
  scalingW : Option ScaleRef
  scalingB : Option ScaleRef
deriving DecidableEq

/-- A zeroed cache slot (the tables start memset to zero). -/
def emptyEntry : Entry :=
  ⟨⟨⟨0, 0, 0, 0, 0, 0⟩, ⟨0, 0, 0, 0, 0, 0⟩⟩, 0, 0, 0, 0, none, none, none⟩

/-- SCALE_FACTOR_NORMAL (modelled from the spec: the "NORMAL/no scaling"
default written into a fresh Entry). -/
def scaleNormal : Nat := 64

/-- The Entry computed by Material::probe on a cache miss for the material
composition k.  It reads the position only through its piece counts, so it is
a function of the material key: memset to zero, key and normal scale factors
set, game phase computed, then the dispatch — Value registry first, then the
seven classifier predicates (WHITE before BLACK for each), then the
ScaleFactor registry, then the imbalance fallback. -/
def baseEntry (vals : Vals) (k : MatComp) : Entry :=
  { key := k, value := 0, gamePhase := gamePhaseOf vals k,
    factorW := scaleNormal, factorB := scaleNormal,
    evaluationFunction := none, scalingW := none, scalingB := none }

/-- The evaluator-attachment decision of Material::probe, in source order:
the Value-kind registry probe short-circuits; then the seven classifier
predicates, each iterating WHITE before BLACK; none returns when no special
evaluation function applies. -/
def classifyEval (vals : Vals) (k : MatComp) : Option EvalRef :=
  match registryValue k with
  | some (rk, c) => some (.registered rk c)
  | none =>
    if is_KXK vals k .white then some (.kxk .white)
    else if is_KXK vals k .black then some (.kxk .black)
    else if is_KQsPsK k .white then some (.kqspsk .white)
    else if is_KQsPsK k .black then some (.kqspsk .black)
    else if is_KXKP vals k .white then some (.kxkp .white)
    else if is_KXKP vals k .black then some (.kxkp .black)
    else if is_KXKQ vals k .white then some (.kxkq .white)
    else if is_KXKQ vals k .black then some (.kxkq .black)
    else if is_KXKB vals k .white then some (.kxkb .white)
    else if is_KXKB vals k .black then some (.kxkb .black)
    else if is_KXKN vals k .white then some (.kxkn .white)
    else if is_KXKN vals k .black then some (.kxkn .black)
    else if is_KXKR vals k .white then some (.kxkr .white)
    else if is_KXKR vals k .black then some (.kxkr .black)
    else none

def entryOfComp (vals : Vals) (k : MatComp) : Entry :=
  match classifyEval vals k with
  | some r => { baseEntry vals k with evaluationFunction := some r }
  | none =>
    match registryScale k with
    | some (s, _) => nomatch s
    | none =>
      { baseEntry vals k with
        value := i16 (Int.tdiv (imbalance k .white - imbalance k .black) 16) }

/-- Modelled from the spec: Material::probe over the per-worker direct-mapped
table ("a fixed-size array of Entries plus a per-slot validation key; no
chaining; overwrite-on-collision").  The slot-index function stands for the
low-bits indexing of the hash table and is quantified over.  Returns the
Entry together with the updated table. -/
def probe {N : Nat} (vals : Vals) (slotOf : MatComp → Fin N)
    (t : Fin N → Entry) (pos : Position) : Entry × (Fin N → Entry) :=
  let k := materialKey pos
  let i := slotOf k
  if (t i).key = k then (t i, t)
  else
    let e := entryOfComp vals k
    (e, fun j => if j = i then e else t j)

/-- A table state reachable by probe: every slot is still zeroed or holds the
entry probe computed for that slot's stored key. -/
def wellFormed {N : Nat} (vals : Vals) (t : Fin N → Entry) : Prop :=
  ∀ i, t i = emptyEntry ∨ t i = entryOfComp vals ((t i).key)

/-- PushToEdges from endgame.cpp. -/
def PushToEdgesT : List Nat :=
  [100, 90, 80, 70, 70, 80, 90, 100,
    90, 70, 60, 50, 50, 60, 70, 90,
    80, 60, 40, 30, 30, 40, 60, 80,
    70, 50, 30, 20, 20, 30, 50, 70,
    70, 50, 30, 20, 20, 30, 50, 70,
    80, 60, 40, 30, 30, 40, 60, 80,
    90, 70, 60, 50, 50, 60, 70, 90,
   100, 90, 80, 70, 70, 80, 90, 100]

/-- PushToCorn from endgame.cpp (defined by the source; not referenced by the
evaluators in view). -/
def PushToCornT : List Nat :=
  [200, 150, 100, 70, 70, 100, 150, 200,
   150, 70, 60, 50, 50, 60, 70, 150,
   100, 60, 40, 30, 30, 40, 60, 100,
    70, 50, 30, 20, 20, 30, 50, 70,
    70, 50, 30, 20, 20, 30, 50, 70,
   100, 60, 40, 30, 30, 40, 60, 100,
   150, 70, 60, 50, 50, 60, 70, 150,
   200, 150, 100, 70, 70, 100, 150, 200]

/-- PushToOpposingSideEdges from endgame.cpp. -/
def PushToOpposingSideEdgesT : List Nat :=
  [30, 5, 3, 0, 0, 3, 5, 30,
   40, 20, 5, 0, 0, 5, 20, 40,
   50, 30, 10, 3, 3, 10, 30, 50,
   60, 40, 20, 7, 7, 20, 40, 60,
   70, 50, 30, 20, 20, 30, 50, 70,
   80, 60, 40, 30, 30, 40, 60, 80,
   90, 70, 60, 50, 50, 60, 70, 90,
   100, 90, 80, 70, 70, 80, 90, 100]

/-- PushToQueenCorners from endgame.cpp. -/
def PushToQueenCornersT : List Nat :=
  [100, 90, 80, 70, 50, 30, 0, 0,
    90, 70, 60, 50, 30, 10, 0, 0,
    80, 60, 40, 30, 10, 0, 10, 30,
    70, 50, 30, 10, 0, 10, 30, 50,
    50, 30, 10, 0, 10, 30, 50, 70,
    30, 10, 0, 10, 30, 40, 60, 80,
     0, 0, 10, 30, 50, 60, 70, 90,
     0, 0, 30, 50, 70, 80, 90, 100]

/-- KingCorners from endgame.cpp. -/
def KingCornersT : List Nat :=
  [1, 1, 1, 0, 0, 2, 2, 2,
   1, 1, 1, 0, 0, 2, 2, 2,
   1, 1, 1, 0, 0, 2, 2, 2,
   0, 0, 0, 0, 0, 0, 0, 0,
   0, 0, 0, 0, 0, 0, 0, 0,
   3, 3, 3, 0, 0, 4, 4, 4,
   3, 3, 3, 0, 0, 4, 4, 4,
   3, 3, 3, 0, 0, 4, 4, 4]

/-- PushToCorners from endgame.cpp. -/
def PushToCornersT : List Nat :=
  [200, 190, 180, 170, 160, 150, 140, 130,
   190, 180, 170, 160, 150, 140, 130, 140,
   180, 170, 155, 140, 140, 125, 140, 150,
   170, 160, 140, 120, 110, 140, 150, 160,
   160, 150, 140, 110, 120, 140, 160, 170,
   150, 140, 125, 140, 140, 155, 170, 180,
   140, 130, 140, 150, 160, 170, 180, 190,
   130, 140, 150, 160, 170, 180, 190, 200]

/-- PushClose from endgame.cpp. -/
def PushCloseT : List Nat := [0, 0, 100, 80, 60, 40, 20, 10]

/-- PushAway from endgame.cpp. -/
def PushAwayT : List Nat := [0, 5, 20, 40, 60, 80, 90, 100]

/-- PushWin from endgame.cpp. -/
def PushWinT : List Nat := [0, 120, 100, 80, 60, 40, 20, 10]

def pushToEdgesN (s : Square) : Nat := PushToEdgesT.getD s.val 0

def pushToOppEdgesN (s : Square) : Nat := PushToOpposingSideEdgesT.getD s.val 0

def pushToQueenCornersN (s : Square) : Nat := PushToQueenCornersT.getD s.val 0

def kingCornersN (s : Square) : Nat := KingCornersT.getD s.val 0

def pushToCornersN (s : Square) : Nat := PushToCornersT.getD s.val 0

def pushCloseN (d : Nat) : Nat := PushCloseT.getD d 0

def pushAwayN (d : Nat) : Nat := PushAwayT.getD d 0

def pushWinN (d : Nat) : Nat := PushWinT.getD d 0

/-- VALUE_DRAW (modelled from the spec: the named draw sentinel score). -/
def valueDraw : Int := 0

/-- Endgame-KXK-::operator() from endgame.cpp: stalemate check, base score
from material and king geometry, bishop and queen addenda, the forced-mate
clamp disjunction, and the same-colored-queens draw override. -/
def kxkEval (vals : Vals) (strong : Color) (pos : Position) : Int :=
  if pos.sideToMove = strong.opp ∧ pos.hasLegalMoves = false then valueDraw
  else
    let wk := pos.kingSq strong
    let bsq := squareD pos strong .bishop
    let qsq := squareD pos strong .queen
    let lk := pos.kingSq strong.opp
    let nb := posCount pos strong .knight
    let bb := posCount pos strong .bishop
    let qb := posCount pos strong .queen
    let rb := posCount pos strong .rook
    let r0 : Int := npm vals pos strong
      + (posCount pos strong .pawn : Int) * vals.pawnEg
      + (pushToEdgesN lk : Int) + (pushCloseN (dist wk lk) : Int)
    let r1 : Int := if 1 ≤ bb then
        r0 + (pushToEdgesN lk : Int) + (pushWinN (dist bsq lk) : Int) else r0
    let r2 : Int := if 1 ≤ qb then
        r1 + (pushToEdgesN lk : Int) + (pushWinN (dist qsq lk) : Int) else r1
    let dark := (pos.queens strong).any isDark
    let light := (pos.queens strong).any (fun s => !isDark s)
    let clampCond : Bool :=
      decide (1 ≤ rb)
      || (decide (1 ≤ rb) && decide (1 ≤ nb) && decide (1 ≤ bb) && decide (1 ≤ qb))
      || (decide (1 ≤ rb) && decide (1 ≤ nb) && decide (1 ≤ bb))
      || (decide (1 ≤ rb) && decide (1 ≤ nb) && decide (1 ≤ qb))
      || (decide (1 ≤ rb) && decide (1 ≤ bb) && decide (1 ≤ qb))
      || (decide (1 ≤ rb) && decide (1 ≤ nb))
      || (decide (1 ≤ rb) && decide (1 ≤ bb))
      || (decide (1 ≤ rb) && decide (1 ≤ qb))
      || (decide (1 ≤ bb) && decide (1 ≤ nb) && decide (1 ≤ qb))
      || (decide (1 ≤ bb) && decide (1 ≤ nb))
      || (bb == 2)
      || (decide (1 ≤ bb) && decide (1 ≤ qb))
      || ((nb == 1) && decide (2 ≤ qb))
      || ((nb == 2) && decide (1 ≤ qb))
      || (decide (3 ≤ qb) && dark && light)
    let r3 : Int := if clampCond then min (r2 + vals.knownWin) (vals.mateInMaxPly - 1) else r2
    if 3 ≤ qb ∧ rb = 0 ∧ nb = 0 ∧ bb = 0 ∧ (dark = false ∨ light = false) then valueDraw
    else if pos.sideToMove = strong then r3 else -r3

/-- The promoted-queen-color loop of Endgame-KQsPsK-: pop the strong side's
pawns while both square colors have not yet been seen; a pawn whose file
parity matches the side-dependent bit contributes a light-squared queen,
otherwise a dark-squared one. -/
def qpLoopF (strong : Color) : List Square → Bool → Bool → Bool × Bool
  | [], d, l => (d, l)
  | s :: rest, d, l =>
    if d && l then (d, l)
    else if fileOf s % 2 = (if strong = .white then 0 else 1) then
      qpLoopF strong rest d true
    else qpLoopF strong rest true l

/-- Endgame-KQsPsK-::operator() from endgame.cpp. -/
def kqspskEval (vals : Vals) (strong : Color) (pos : Position) : Int :=
  let lk := pos.kingSq strong.opp
  let r : Int := npm vals pos strong
    + (posCount pos strong .pawn : Int) * vals.pawnEg
    - (posCount pos strong.opp .pawn : Int) * vals.pawnEg
  let dark := (pos.queens strong).any isDark
  let light := (pos.queens strong).any (fun s => !isDark s)
  if decide (3 ≤ posCount pos strong .queen) && dark && light then
    let r2 := r + (pushToEdgesN lk : Int)
    if pos.sideToMove = strong then r2 else -r2
  else if posCount pos strong .queen + posCount pos strong .pawn < 3 then valueDraw
  else
    let dl := qpLoopF strong (pos.pawns strong) dark light
    if !dl.1 || !dl.2 then valueDraw
    else if pos.sideToMove = strong then r else -r

/-- Endgame-KXKP-::operator() from endgame.cpp.  Note the source reads the
weak side's queen square whenever the strong side holds a queen. -/
def kxkpEval (vals : Vals) (strong : Color) (pos : Position) : Int :=
  let wk := pos.kingSq strong
  let nsq := squareD pos strong .knight
  let bsq := squareD pos strong .bishop
  let qsq := squareD pos strong .queen
  let lk := pos.kingSq strong.opp
  let r0 : Int := npm vals pos strong
    + (pushToEdgesN lk : Int) + (pushToCornersN lk : Int)
    + (pushToOppEdgesN (if strong = .white then lk else flipS lk) : Int)
    + (pushToQueenCornersN (if oppositeColors qsq sqA1 then flipS lk else lk) : Int)
    + (pushCloseN (dist wk lk) : Int)
  let r1 : Int := if posCount pos strong .queen ≠ 0 then
      r0 + (pushAwayN (dist lk (squareD pos strong.opp .queen)) : Int) else r0
  let r2 : Int := if posCount pos strong .rook ≠ 0 then
      r1 + (pushToEdgesN lk : Int) else r1
  let r3 : Int := if posCount pos strong .knight ≠ 0 then
      r2 + (pushCloseN (dist nsq wk) / 2 : Nat) + (pushToCornersN lk : Int) else r2
  let r4 : Int := if posCount pos strong .bishop ≠ 0 then
      r3 + (pushCloseN (dist bsq wk) / 2 : Nat)
        + (pushToOppEdgesN (if strong = .white then lk else flipS lk) : Int) else r3
  let r5 : Int := if posCount pos strong .queen ≠ 0 then
      r4 + (pushCloseN (dist qsq wk) / 2 : Nat)
        + (pushToQueenCornersN (if oppositeColors qsq sqA1 then flipS lk else lk) : Int) else r4
  if pos.sideToMove = strong then r5 else -r5

/-- Endgame-KXKQ-::operator() from endgame.cpp (same body as KXKP). -/
def kxkqEval (vals : Vals) (strong : Color) (pos : Position) : Int :=
  let wk := pos.kingSq strong
  let nsq := squareD pos strong .knight
  let bsq := squareD pos strong .bishop
  let qsq := squareD pos strong .queen
  let lk := pos.kingSq strong.opp
  let r0 : Int := npm vals pos strong
    + (pushToEdgesN lk : Int) + (pushToCornersN lk : Int)
    + (pushToOppEdgesN (if strong = .white then lk else flipS lk) : Int)
    + (pushToQueenCornersN (if oppositeColors qsq sqA1 then flipS lk else lk) : Int)
    + (pushCloseN (dist wk lk) : Int)
  let r1 : Int := if posCount pos strong .queen ≠ 0 then
      r0 + (pushAwayN (dist lk (squareD pos strong.opp .queen)) : Int) else r0
  let r2 : Int := if posCount pos strong .rook ≠ 0 then
      r1 + (pushToEdgesN lk : Int) else r1
  let r3 : Int := if posCount pos strong .knight ≠ 0 then
      r2 + (pushCloseN (dist nsq wk) / 2 : Nat) + (pushToCornersN lk : Int) else r2
  let r4 : Int := if posCount pos strong .bishop ≠ 0 then
      r3 + (pushCloseN (dist bsq wk) / 2 : Nat)
        + (pushToOppEdgesN (if strong = .white then lk else flipS lk) : Int) else r3
  let r5 : Int := if posCount pos strong .queen ≠ 0 then
      r4 + (pushCloseN (dist qsq wk) / 2 : Nat)
        + (pushToQueenCornersN (if oppositeColors qsq sqA1 then flipS lk else lk) : Int) else r4
  if pos.sideToMove = strong then r5 else -r5

/-- Endgame-KXKB-::operator() from endgame.cpp (no weak-queen away term). -/
def kxkbEval (vals : Vals) (strong : Color) (pos : Position) : Int :=
  let wk := pos.kingSq strong
  let nsq := squareD pos strong .knight
  let bsq := squareD pos strong .bishop
  let qsq := squareD pos strong .queen
  let lk := pos.kingSq strong.opp
  let r0 : Int := npm vals pos strong
    + (pushToEdgesN lk : Int) + (pushToCornersN lk : Int)
    + (pushToOppEdgesN (if strong = .white then lk else flipS lk) : Int)
    + (pushToQueenCornersN (if oppositeColors qsq sqA1 then flipS lk else lk) : Int)
    + (pushCloseN (dist wk lk) : Int)
  let r2 : Int := if posCount pos strong .rook ≠ 0 then
      r0 + (pushToEdgesN lk : Int) else r0
  let r3 : Int := if posCount pos strong .knight ≠ 0 then
      r2 + (pushCloseN (dist nsq wk) / 2 : Nat) + (pushToCornersN lk : Int) else r2
  let r4 : Int := if posCount pos strong .bishop ≠ 0 then
      r3 + (pushCloseN (dist bsq wk) / 2 : Nat)
        + (pushToOppEdgesN (if strong = .white then lk else flipS lk) : Int) else r3
  let r5 : Int := if posCount pos strong .queen ≠ 0 then
      r4 + (pushCloseN (dist qsq wk) / 2 : Nat)
        + (pushToQueenCornersN (if oppositeColors qsq sqA1 then flipS lk else lk) : Int) else r4
  if pos.sideToMove = strong then r5 else -r5

/-- Endgame-KXKN-::operator() from endgame.cpp (same body as KXKB). -/
def kxknEval (vals : Vals) (strong : Color) (pos : Position) : Int :=
  let wk := pos.kingSq strong
  let nsq := squareD pos strong .knight
  let bsq := squareD pos strong .bishop
  let qsq := squareD pos strong .queen
  let lk := pos.kingSq strong.opp
  let r0 : Int := npm vals pos strong
    + (pushToEdgesN lk : Int) + (pushToCornersN lk : Int)
    + (pushToOppEdgesN (if strong = .white then lk else flipS lk) : Int)
    + (pushToQueenCornersN (if oppositeColors qsq sqA1 then flipS lk else lk) : Int)
    + (pushCloseN (dist wk lk) : Int)
  let r2 : Int := if posCount pos strong .rook ≠ 0 then
      r0 + (pushToEdgesN lk : Int) else r0
  let r3 : Int := if posCount pos strong .knight ≠ 0 then
      r2 + (pushCloseN (dist nsq wk) / 2 : Nat) + (pushToCornersN lk : Int) else r2
  let r4 : Int := if posCount pos strong .bishop ≠ 0 then
      r3 + (pushCloseN (dist bsq wk) / 2 : Nat)
        + (pushToOppEdgesN (if strong = .white then lk else flipS lk) : Int) else r3
  let r5 : Int := if posCount pos strong .queen ≠ 0 then
      r4 + (pushCloseN (dist qsq wk) / 2 : Nat)
        + (pushToQueenCornersN (if oppositeColors qsq sqA1 then flipS lk else lk) : Int) else r4
  if pos.sideToMove = strong then r5 else -r5

/-- Endgame-KXKR-::operator() from endgame.cpp (same body as KXKB). -/
def kxkrEval (vals : Vals) (strong : Color) (pos : Position) : Int :=
  let wk := pos.kingSq strong
  let nsq := squareD pos strong .knight
  let bsq := squareD pos strong .bishop
  let qsq := squareD pos strong .queen
  let lk := pos.kingSq strong.opp
  let r0 : Int := npm vals pos strong
    + (pushToEdgesN lk : Int) + (pushToCornersN lk : Int)
    + (pushToOppEdgesN (if strong = .white then lk else flipS lk) : Int)
    + (pushToQueenCornersN (if oppositeColors qsq sqA1 then flipS lk else lk) : Int)
    + (pushCloseN (dist wk lk) : Int)
  let r2 : Int := if posCount pos strong .rook ≠ 0 then
      r0 + (pushToEdgesN lk : Int) else r0
  let r3 : Int := if posCount pos strong .knight ≠ 0 then
      r2 + (pushCloseN (dist nsq wk) / 2 : Nat) + (pushToCornersN lk : Int) else r2
  let r4 : Int := if posCount pos strong .bishop ≠ 0 then
      r3 + (pushCloseN (dist bsq wk) / 2 : Nat)
        + (pushToOppEdgesN (if strong = .white then lk else flipS lk) : Int) else r3
  let r5 : Int := if posCount pos strong .queen ≠ 0 then
      r4 + (pushCloseN (dist qsq wk) / 2 : Nat)
        + (pushToQueenCornersN (if oppositeColors qsq sqA1 then flipS lk else lk) : Int) else r4
  if pos.sideToMove = strong then r5 else -r5

/-- Endgame-KBQK-::operator() from endgame.cpp: when the weak king sits in a
corner region matching the queen's square color the kings are normalized and
the queen-corner drive applies, otherwise the opposing-side-edge drive; then
bishop and queen proximity addenda. -/
def kbqkEval (vals : Vals) (strong : Color) (pos : Position) : Int :=
  let wk := pos.kingSq strong
  let lk := pos.kingSq strong.opp
  let bsq := squareD pos strong .bishop
  let qsq := squareD pos strong .queen
  let corner := kingCornersN lk
  let cond : Bool :=
    ((corner == 1) && !oppositeColors qsq sqA1)
    || ((corner == 2) && !oppositeColors qsq sqH1)
    || ((corner == 3) && !oppositeColors qsq sqA8)
    || ((corner == 4) && !oppositeColors qsq sqH8)
  let wk2 := if cond && oppositeColors qsq sqA1 then flipS wk else wk
  let lk2 := if cond && oppositeColors qsq sqA1 then flipS lk else lk
  let r0 : Int :=
    if cond then
      vals.knownWin + (pushCloseN (dist wk2 lk2) : Int) + (pushToQueenCornersN lk2 : Int)
    else
      vals.knownWin + (pushCloseN (dist wk2 lk2) : Int)
        + (pushToOppEdgesN (if strong = .white then lk2 else flipS lk2) : Int)
  let r1 : Int := if posCount pos strong .bishop ≠ 0 then
      r0 + (pushCloseN (dist bsq wk2) / 2 : Nat)
        + (pushToOppEdgesN (if strong = .white then lk2 else flipS lk2) : Int) else r0
  let r2 : Int := if posCount pos strong .queen ≠ 0 then
      r1 + (pushCloseN (dist qsq wk2) / 2 : Nat)
        + (pushToQueenCornersN (if oppositeColors qsq sqA1 then flipS lk2 else lk2) : Int) else r1
  if pos.sideToMove = strong then r2 else -r2

/-- The normalized strong-king square of Endgame-KNQK-: mirrored when the
queen cannot reach the A1/H8 corner pair. -/
def knqkWK (pos : Position) (strong : Color) : Square :=
  if oppositeColors (squareD pos strong .queen) sqA1 then flipS (pos.kingSq strong)
  else pos.kingSq strong

/-- The normalized weak-king square of Endgame-KNQK-. -/
def knqkLK (pos : Position) (strong : Color) : Square :=
  if oppositeColors (squareD pos strong .queen) sqA1 then flipS (pos.kingSq strong.opp)
  else pos.kingSq strong.opp

/-- The normalized knight square of Endgame-KNQK-. -/
def knqkNK (pos : Position) (strong : Color) : Square :=
  if oppositeColors (squareD pos strong .queen) sqA1 then flipS (squareD pos strong .knight)
  else squareD pos strong .knight

/-- Endgame-KNQK-::operator() from endgame.cpp: normalize toward the A1/H8
corner pair; if the weak king is at distance at least 4 from both target
corners return only the king-closeness term (bypassing the side-to-move
negation, as the source does); otherwise test the smothering condition for
the known-win bonus and add the queen-corner drive plus proximity addenda. -/
def knqkEval (vals : Vals) (strong : Color) (pos : Position) : Int :=
  let qsq := squareD pos strong .queen
  let wk := knqkWK pos strong
  let lk := knqkLK pos strong
  let nk := knqkNK pos strong
  if decide (4 ≤ dist sqA1 lk) && decide (4 ≤ dist sqH8 lk) then
    (pushCloseN (dist wk lk) : Int)
  else
    let winV : Int :=
      if decide (dist wk (if dist sqA1 lk < 4 then sqA1 else sqH8) ≤ 4)
          && jointKingKnight lk nk then vals.knownWin
      else 0
    let r0 : Int := winV + (pushCloseN (dist wk lk) : Int) + (pushToQueenCornersN lk : Int)
    let r1 : Int := if posCount pos strong .knight ≠ 0 then
        r0 + (pushCloseN (dist nk wk) / 2 : Nat) + (pushToCornersN lk : Int) else r0
    let r2 : Int := if posCount pos strong .queen ≠ 0 then
        r1 + (pushCloseN (dist qsq wk) / 2 : Nat)
          + (pushToQueenCornersN (if oppositeColors qsq sqA1 then flipS lk else lk) : Int) else r1
    if pos.sideToMove = strong then r2 else -r2

/-- Dispatch from an attached evaluator reference to its embedded body.  The
four registered trivial-draw signatures return the draw value with no
geometry computed (endgame.cpp lines 484-487). -/
def evalRun (vals : Vals) (r : EvalRef) (pos : Position) : Int :=
  match r with
  | .kxk c => kxkEval vals c pos
  | .kqspsk c => kqspskEval vals c pos
  | .kxkp c => kxkpEval vals c pos
  | .kxkq c => kxkqEval vals c pos
  | .kxkb c => kxkbEval vals c pos
  | .kxkn c => kxknEval vals c pos
  | .kxkr c => kxkrEval vals c pos
  | .registered .KNNK _ => valueDraw
  | .registered .KNK _ => valueDraw
  | .registered .KBK _ => valueDraw
  | .registered .KQQK _ => valueDraw
  | .registered .KBQK c => kbqkEval vals c pos
  | .registered .KNQK c => knqkEval vals c pos

/-- The probe/evaluator pipeline reading of a position: the attached
specialized evaluator when one exists (it takes precedence over the generic
fields), otherwise the Entry's generic imbalance value. -/
def evaluate (vals : Vals) (pos : Position) : Int :=
  match (entryOfComp vals (materialKey pos)).evaluationFunction with
  | some r => evalRun vals r pos
  | none => (entryOfComp vals (materialKey pos)).value

/-- What Material::probe attaches to a fresh Entry: a Value-kind evaluator, a
ScaleFactor-kind evaluator for a strong side, or nothing (the imbalance
fallback fills the generic value). -/
inductive Attach
  | value (r : EvalRef)
  | scale (c : Color)
  | fallback
deriving DecidableEq

/-- The attachment denoted by an optional Value-evaluator reference. -/
def attachOfOpt : Option EvalRef → Attach
  | some r => Attach.value r
  | none => Attach.fallback

/-- The attachment recorded in an Entry. -/
def attachOf (e : Entry) : Attach :=
  match e.evaluationFunction with
  | some r => .value r
  | none =>
    match e.scalingW with
    | some _ => .scale .white
    | none =>
      match e.scalingB with
      | some _ => .scale .black
      | none => .fallback

/-- The dispatch precedence exactly as the specification words it: an exact
Value-kind registry match short-circuits everything; otherwise the classifier
predicates in the order KXK, KQsPsK, KXKP, KXKQ, KXKB, KXKN, KXKR, each
testing white before black, first match wins; only then the ScaleFactor
registry; only then the imbalance fallback. -/
def claimPrecedence (vals : Vals) (k : MatComp) : Attach :=
  match registryValue k with
  | some (rk, c) => .value (.registered rk c)
  | none =>
    if is_KXK vals k .white then .value (.kxk .white)
    else if is_KXK vals k .black then .value (.kxk .black)
    else if is_KQsPsK k .white then .value (.kqspsk .white)
    else if is_KQsPsK k .black then .value (.kqspsk .black)
    else if is_KXKP vals k .white then .value (.kxkp .white)
    else if is_KXKP vals k .black then .value (.kxkp .black)
    else if is_KXKQ vals k .white then .value (.kxkq .white)
    else if is_KXKQ vals k .black then .value (.kxkq .black)
    else if is_KXKB vals k .white then .value (.kxkb .white)
    else if is_KXKB vals k .black then .value (.kxkb .black)
    else if is_KXKN vals k .white then .value (.kxkn .white)
    else if is_KXKN vals k .black then .value (.kxkn .black)
    else if is_KXKR vals k .white then .value (.kxkr .white)
    else if is_KXKR vals k .black then .value (.kxkr .black)
    else
      match registryScale k with
      | some (s, _) => nomatch s
      | none => .fallback

/-- The square-of-piece lookups executed by Endgame-KXK-::operator(): the
bishop and queen squares of the strong side are read unconditionally. -/
def kxkLookups (strong : Color) : List (Color × PieceType) :=
  [(strong, .king), (strong, .bishop), (strong, .queen), (strong.opp, .king)]

/-- The square-of-piece lookups executed by Endgame-KXKP-::operator(): the
strong side's knight, bishop and queen squares unconditionally, plus the weak
side's queen square whenever the strong side holds a queen. -/
def kxkpLookups (pos : Position) (strong : Color) : List (Color × PieceType) :=
  [(strong, .king), (strong, .knight), (strong, .bishop), (strong, .queen),
   (strong.opp, .king)]
    ++ (if posCount pos strong .queen ≠ 0 then [(strong.opp, .queen)] else [])

/-- Every lookup in the list targets a piece type of which that side has
exactly one piece. -/
def lookupsOkB (pos : Position) (l : List (Color × PieceType)) : Bool :=
  l.all (fun x => posCount pos x.1 x.2 == 1)

/-- Helper for concrete positions: a per-color pair of square lists. -/
def wbL (w b : List Square) : Color → List Square
  | .white => w
  | .black => b

/-- Helper for concrete positions: a per-color pair of squares. -/
def wbS (w b : Square) : Color → Square
  | .white => w
  | .black => b

/-- White Ka1 and Qd4 against the bare black king on h8 (used by the cache
witnesses). -/
def posA : Position :=
  { pawns := wbL [] [], queens := wbL [27] [], bishops := wbL [] [],
    knights := wbL [] [], rooks := wbL [] [], kingSq := wbS 0 63,
    sideToMove := .white, hasLegalMoves := true }

/-- The stored key of the computed Entry is the probed material key, in every
branch of the dispatch. -/
theorem entryOfComp_key (vals : Vals) (k : MatComp) : (entryOfComp vals k).key = k := by
  unfold entryOfComp
  cases classifyEval vals k with
  | some r => rfl
  | none => rfl

/-- C1: Material::probe always returns an Entry whose key field equals the
position's material key, and whenever the probed slot holds a different key
the returned Entry is the full recomputation from the position's material
composition — a slot collision can only cause an extra recomputation, never
the return of data cached for a different composition. -/
theorem c1_probe_validates_key {N : Nat} (vals : Vals) (slotOf : MatComp → Fin N)
    (t : Fin N → Entry) (pos : Position) :
    (probe vals slotOf t pos).1.key = materialKey pos ∧
    ((t (slotOf (materialKey pos))).key ≠ materialKey pos →
      (probe vals slotOf t pos).1 = entryOfComp vals (materialKey pos)) := by
  unfold probe
  by_cases h : (t (slotOf (materialKey pos))).key = materialKey pos
  · simp [h]
  · simp [h, entryOfComp_key]

/-- Witness for C1 at a concrete table state and position. -/
theorem c1_probe_validates_key_w :
    ((fun _ : Fin 1 => emptyEntry) ((fun _ : MatComp => (0 : Fin 1)) (materialKey posA))).key
        ≠ materialKey posA ∧
    (probe testVals (fun _ : MatComp => (0 : Fin 1)) (fun _ => emptyEntry) posA).1
        = entryOfComp testVals (materialKey posA) :=
  ⟨by decide,
   (c1_probe_validates_key testVals (fun _ => (0 : Fin 1)) (fun _ => emptyEntry) posA).2
     (by decide)⟩

/-- C2: Material::probe is deterministic — probing again after a probe yields
the identical Entry; the returned Entry is a function of the table and the
material key alone (two positions with equal keys get identical Entries); and
on any table reachable from the zeroed state a hit is bit-identical to a
fresh recomputation for that key. -/
theorem c2_probe_deterministic {N : Nat} (vals : Vals) (slotOf : MatComp → Fin N)
    (t : Fin N → Entry) (pos : Position) :
    (probe vals slotOf (probe vals slotOf t pos).2 pos).1 = (probe vals slotOf t pos).1 ∧
    (∀ pos2, materialKey pos2 = materialKey pos →
      (probe vals slotOf t pos2).1 = (probe vals slotOf t pos).1) ∧
    (wellFormed vals t →
      (probe vals slotOf t pos).1 = entryOfComp vals (materialKey pos)) := by
  refine ⟨?_, ?_, ?_⟩
  · unfold probe
    by_cases h : (t (slotOf (materialKey pos))).key = materialKey pos
    · simp [h]
    · simp [h, entryOfComp_key]
  · intro pos2 h
    unfold probe
    rw [h]
  · intro hwf
    unfold probe
    by_cases h : (t (slotOf (materialKey pos))).key = materialKey pos
    · rcases hwf (slotOf (materialKey pos)) with he | he
      · exfalso
        rw [he] at h
        have : (emptyEntry.key).w.king = (materialKey pos).w.king := by rw [h]
        simp [emptyEntry, materialKey, sideCountOf] at this
      · simp only [h] at he
        simp [h, he, entryOfComp_key]
    · simp [h]

/-- Witness for C2: on the zeroed one-slot table the probe result is the
fresh recomputation. -/
theorem c2_probe_deterministic_w :
    wellFormed testVals (fun _ : Fin 1 => emptyEntry) ∧
    (probe testVals (fun _ : MatComp => (0 : Fin 1)) (fun _ => emptyEntry) posA).1
      = entryOfComp testVals (materialKey posA) :=
  ⟨fun _ => Or.inl rfl,
   (c2_probe_deterministic testVals (fun _ => (0 : Fin 1)) (fun _ => emptyEntry) posA).2.2
     (fun _ => Or.inl rfl)⟩

/-- C3: on a cache miss the attachment computed by Material::probe follows
exactly the claimed fixed precedence — exact Value-kind registry match first,
then the classifier predicates in the order KXK, KQsPsK, KXKP, KXKQ, KXKB,
KXKN, KXKR with white tested before black for each, then the ScaleFactor
registry, and the imbalance fallback only after all of these. -/
theorem c3_dispatch_precedence (vals : Vals) (k : MatComp) :
    attachOf (entryOfComp vals k) = claimPrecedence vals k := by
  have h1 : attachOf (entryOfComp vals k) = attachOfOpt (classifyEval vals k) := by
    unfold entryOfComp
    cases classifyEval vals k with
    | some r => rfl
    | none => rfl
  rw [h1]
  unfold claimPrecedence classifyEval
  cases registryValue k with
  | some rc => obtain ⟨rk, c⟩ := rc; rfl
  | none => simp only [apply_ite attachOfOpt]; rfl


/-- The closed polynomial form of imbalance(): the guard on a zero own count
is absorbed (a zero count contributes zero either way) and the table lookups
are resolved. -/
theorem imbalance_eq (k : MatComp) (us : Color) :
    imbalance k us =
      (qpair (k.side us) : Int) * (1000 * (qpair (k.side us) : Int))
      + ((k.side us).pawn : Int)
          * (40 * (qpair (k.side us) : Int) + 36 * (qpair (k.side us.opp) : Int))
      + ((k.side us).queen : Int)
          * (69 * ((k.side us).pawn : Int) - ((k.side us).queen : Int)
             + 40 * (qpair (k.side us.opp) : Int) + 50 * ((k.side us.opp).pawn : Int))
      + ((k.side us).bishop : Int)
          * (104 * ((k.side us).pawn : Int) + 33 * ((k.side us).queen : Int)
             - 105 * ((k.side us).bishop : Int) + 59 * (qpair (k.side us.opp) : Int)
             + 65 * ((k.side us.opp).pawn : Int) + 25 * ((k.side us.opp).queen : Int))
      + ((k.side us).knight : Int)
          * (32 * (qpair (k.side us) : Int) + 255 * ((k.side us).pawn : Int)
             + 2 * ((k.side us).queen : Int) + 4 * ((k.side us).bishop : Int)
             - 3 * ((k.side us).knight : Int) + 9 * (qpair (k.side us.opp) : Int)
             + 63 * ((k.side us.opp).pawn : Int) + 7 * ((k.side us.opp).queen : Int)
             + 42 * ((k.side us.opp).bishop : Int))
      + ((k.side us).rook : Int)
          * (-26 * (qpair (k.side us) : Int) - 2 * ((k.side us).pawn : Int)
             + 52 * ((k.side us).queen : Int) + 110 * ((k.side us).bishop : Int)
             + 47 * ((k.side us).knight : Int) - 150 * ((k.side us).rook : Int)
             + 46 * (qpair (k.side us.opp) : Int) + 39 * ((k.side us.opp).pawn : Int)
             - 8 * ((k.side us.opp).queen : Int) - 24 * ((k.side us.opp).bishop : Int)
             + 240 * ((k.side us.opp).knight : Int)) := by
  have hIf : ∀ (n : Nat) (v : Int), (if n = 0 then (0:Int) else (n:Int) * v) = (n:Int) * v := by
    intro n v
    by_cases h : n = 0 <;> simp [h]
  simp only [imbalance, innerV, hIf, List.map_cons, List.map_nil, List.sum_cons,
    List.sum_nil, show List.range 1 = [0] from rfl, show List.range 2 = [0, 1] from rfl,
    show List.range 3 = [0, 1, 2] from rfl, show List.range 4 = [0, 1, 2, 3] from rfl,
    show List.range 5 = [0, 1, 2, 3, 4] from rfl, show List.range 6 = [0, 1, 2, 3, 4, 5] from rfl]
  norm_num [pcVec, qo, qt, QuadraticOurs, QuadraticTheirs]
  ring

theorem mulBound {a v cap lo hi : Int} (h0 : 0 ≤ a) (h1 : a ≤ cap)
    (h2 : lo ≤ v) (h3 : v ≤ hi) (hlo : lo ≤ 0) (hhi : 0 ≤ hi) :
    cap * lo ≤ a * v ∧ a * v ≤ cap * hi := by
  constructor
  · nlinarith
  · nlinarith

/-- The per-type piece-count limits of a Makruk side: eight pawns, at most
nine queens (one original Met plus eight promotions), two bishops, two
knights, two rooks.  Every reachable game position satisfies them. -/
abbrev withinMakrukCaps (s : SideCount) : Prop :=
  s.pawn ≤ 8 ∧ s.queen ≤ 9 ∧ s.bishop ≤ 2 ∧ s.knight ≤ 2 ∧ s.rook ≤ 2

theorem qpair_le_one (s : SideCount) : qpair s ≤ 1 := by
  unfold qpair
  split <;> omega

/-- Within the Makruk piece-count caps the imbalance polynomial stays inside
an interval far below the int16 storage range. -/
theorem imb_bounds (k : MatComp) (us : Color)
    (hu : withinMakrukCaps (k.side us)) (ho : withinMakrukCaps (k.side us.opp)) :
    -1437 ≤ imbalance k us ∧ imbalance k us ≤ 23158 := by
  obtain ⟨hp, hq, hb, hn, hr⟩ := hu
  obtain ⟨hp2, hq2, hb2, hn2, hr2⟩ := ho
  have hqp := qpair_le_one (k.side us)
  have hqp2 := qpair_le_one (k.side us.opp)
  rw [imbalance_eq]
  have ha0 : (0:Int) ≤ (qpair (k.side us) : Int) ∧ (qpair (k.side us) : Int) ≤ 1 := by omega
  have ha1 : (0:Int) ≤ ((k.side us).pawn : Int) ∧ ((k.side us).pawn : Int) ≤ 8 := by omega
  have ha2 : (0:Int) ≤ ((k.side us).queen : Int) ∧ ((k.side us).queen : Int) ≤ 9 := by omega
  have ha3 : (0:Int) ≤ ((k.side us).bishop : Int) ∧ ((k.side us).bishop : Int) ≤ 2 := by omega
  have ha4 : (0:Int) ≤ ((k.side us).knight : Int) ∧ ((k.side us).knight : Int) ≤ 2 := by omega
  have ha5 : (0:Int) ≤ ((k.side us).rook : Int) ∧ ((k.side us).rook : Int) ≤ 2 := by omega
  have h0 := mulBound ha0.1 ha0.2 (show (0:Int) ≤ 1000 * (qpair (k.side us) : Int) by omega)
    (show 1000 * (qpair (k.side us) : Int) ≤ 1000 by omega) (by norm_num) (by norm_num)
  have h1 := mulBound ha1.1 ha1.2
    (show (0:Int) ≤ 40 * (qpair (k.side us) : Int) + 36 * (qpair (k.side us.opp) : Int) by omega)
    (show 40 * (qpair (k.side us) : Int) + 36 * (qpair (k.side us.opp) : Int) ≤ 76 by omega)
    (by norm_num) (by norm_num)
  have h2 := mulBound ha2.1 ha2.2
    (show (-9:Int) ≤ 69 * ((k.side us).pawn : Int) - ((k.side us).queen : Int)
        + 40 * (qpair (k.side us.opp) : Int) + 50 * ((k.side us.opp).pawn : Int) by omega)
    (show 69 * ((k.side us).pawn : Int) - ((k.side us).queen : Int)
        + 40 * (qpair (k.side us.opp) : Int) + 50 * ((k.side us.opp).pawn : Int) ≤ 992 by omega)
    (by norm_num) (by norm_num)
  have h3 := mulBound ha3.1 ha3.2
    (show (-210:Int) ≤ 104 * ((k.side us).pawn : Int) + 33 * ((k.side us).queen : Int)
        - 105 * ((k.side us).bishop : Int) + 59 * (qpair (k.side us.opp) : Int)
        + 65 * ((k.side us.opp).pawn : Int) + 25 * ((k.side us.opp).queen : Int) by omega)
    (show 104 * ((k.side us).pawn : Int) + 33 * ((k.side us).queen : Int)
        - 105 * ((k.side us).bishop : Int) + 59 * (qpair (k.side us.opp) : Int)
        + 65 * ((k.side us.opp).pawn : Int) + 25 * ((k.side us.opp).queen : Int) ≤ 1933 by omega)
    (by norm_num) (by norm_num)
  have h4 := mulBound ha4.1 ha4.2
    (show (-6:Int) ≤ 32 * (qpair (k.side us) : Int) + 255 * ((k.side us).pawn : Int)
        + 2 * ((k.side us).queen : Int) + 4 * ((k.side us).bishop : Int)
        - 3 * ((k.side us).knight : Int) + 9 * (qpair (k.side us.opp) : Int)
        + 63 * ((k.side us.opp).pawn : Int) + 7 * ((k.side us.opp).queen : Int)
        + 42 * ((k.side us.opp).bishop : Int) by omega)
    (show 32 * (qpair (k.side us) : Int) + 255 * ((k.side us).pawn : Int)
        + 2 * ((k.side us).queen : Int) + 4 * ((k.side us).bishop : Int)
        - 3 * ((k.side us).knight : Int) + 9 * (qpair (k.side us.opp) : Int)
        + 63 * ((k.side us.opp).pawn : Int) + 7 * ((k.side us.opp).queen : Int)
        + 42 * ((k.side us.opp).bishop : Int) ≤ 2758 by omega)
    (by norm_num) (by norm_num)
  have h5 := mulBound ha5.1 ha5.2
    (show (-462:Int) ≤ -26 * (qpair (k.side us) : Int) - 2 * ((k.side us).pawn : Int)
        + 52 * ((k.side us).queen : Int) + 110 * ((k.side us).bishop : Int)
        + 47 * ((k.side us).knight : Int) - 150 * ((k.side us).rook : Int)
        + 46 * (qpair (k.side us.opp) : Int) + 39 * ((k.side us.opp).pawn : Int)
        - 8 * ((k.side us.opp).queen : Int) - 24 * ((k.side us.opp).bishop : Int)
        + 240 * ((k.side us.opp).knight : Int) by omega)
    (show -26 * (qpair (k.side us) : Int) - 2 * ((k.side us).pawn : Int)
        + 52 * ((k.side us).queen : Int) + 110 * ((k.side us).bishop : Int)
        + 47 * ((k.side us).knight : Int) - 150 * ((k.side us).rook : Int)
        + 46 * (qpair (k.side us.opp) : Int) + 39 * ((k.side us.opp).pawn : Int)
        - 8 * ((k.side us.opp).queen : Int) - 24 * ((k.side us.opp).bishop : Int)
        + 240 * ((k.side us.opp).knight : Int) ≤ 1620 by omega)
    (by norm_num) (by norm_num)
  constructor
  · linarith [h0.1, h1.1, h2.1, h3.1, h4.1, h5.1]
  · linarith [h0.2, h1.2, h2.2, h3.2, h4.2, h5.2]

/-- For arguments in the interval the int16 wrap of the truncated quotient by
16 is the identity. -/
theorem i16_tdiv_sixteen (x : Int) (h1 : -24595 ≤ x) (h2 : x ≤ 24595) :
    i16 (Int.tdiv x 16) = Int.tdiv x 16 := by
  have hd : -24595 ≤ Int.tdiv x 16 ∧ Int.tdiv x 16 ≤ 24595 := by
    rcases le_or_lt 0 x with hx | hx
    · rw [Int.tdiv_eq_ediv hx (by norm_num)]
      constructor <;> omega
    · have hneg : Int.tdiv x 16 = -(Int.tdiv (-x) 16) := by
        rw [← Int.neg_tdiv, Int.neg_neg]
      rw [hneg, Int.tdiv_eq_ediv (by omega) (by norm_num)]
      constructor <;> omega
  unfold i16
  omega

/-- The fallback shape of the computed Entry when no evaluator is attached. -/
theorem entryOfComp_fallback (vals : Vals) (k : MatComp)
    (hE : (entryOfComp vals k).evaluationFunction = none) :
    entryOfComp vals k
      = { baseEntry vals k with
          value := i16 (Int.tdiv (imbalance k .white - imbalance k .black) 16) } := by
  have hE2 := hE
  unfold entryOfComp at hE2 ⊢
  cases hc : classifyEval vals k with
  | some r =>
    rw [hc] at hE2
    simp at hE2
  | none => rfl

/-- C4: when no specialized evaluation or scaling function is attached, the
Entry's value field is exactly (bonus(WHITE) - bonus(BLACK)) / 16 truncated
toward zero, with bonus the polynomial over the two fixed lower-triangular
tables in material.cpp; for compositions within the Makruk piece-count caps
the int16 storage wrap is the identity. -/
theorem c4_imbalance_fallback (vals : Vals) (k : MatComp)
    (hE : (entryOfComp vals k).evaluationFunction = none)
    (_hsW : (entryOfComp vals k).scalingW = none)
    (_hsB : (entryOfComp vals k).scalingB = none)
    (hw : withinMakrukCaps k.w) (hb : withinMakrukCaps k.b) :
    (entryOfComp vals k).value
      = Int.tdiv (imbalance k .white - imbalance k .black) 16 := by
  rw [entryOfComp_fallback vals k hE]
  have hW := imb_bounds k .white hw hb
  have hB := imb_bounds k .black hb hw
  exact i16_tdiv_sixteen _ (by linarith [hW.2, hB.1]) (by linarith [hW.1, hB.2])

/-- Both-sides-full starting material of Makruk, a composition the dispatch
sends to the imbalance fallback. -/
def kStart : MatComp := ⟨⟨8, 1, 2, 2, 2, 1⟩, ⟨8, 1, 2, 2, 2, 1⟩⟩

/-- Witness for C4 at the starting material composition. -/
theorem c4_imbalance_fallback_w :
    (entryOfComp testVals kStart).evaluationFunction = none ∧
    (entryOfComp testVals kStart).value
      = Int.tdiv (imbalance kStart .white - imbalance kStart .black) 16 :=
  ⟨by decide,
   c4_imbalance_fallback testVals kStart (by decide) (by decide) (by decide)
     (by decide) (by decide)⟩

/-- The low-force draw branch of Endgame-KQsPsK-: with fewer than three
queens plus pawns the evaluator returns the draw value before any geometry is
computed. -/
theorem kqspsk_draw_of_lowforce (vals : Vals) (strong : Color) (pos : Position)
    (h : posCount pos strong .queen + posCount pos strong .pawn < 3) :
    kqspskEval vals strong pos = valueDraw := by
  have hq : ¬ (3 ≤ posCount pos strong .queen) := by omega
  simp [kqspskEval, hq, h]

/-- C6: for every position classified as queens-and-pawns-only versus a
(near-)bare king whose strong side holds fewer than three queens plus pawns,
the KQsPsK evaluator returns exactly the draw value, for every square
placement and side to move; in particular this covers exactly two queens and
no pawns. -/
theorem c6_kqspsk_lowforce_draw (vals : Vals) (strong : Color) (pos : Position)
    (_hcls : is_KQsPsK (materialKey pos) strong = true)
    (h : posCount pos strong .queen + posCount pos strong .pawn < 3) :
    kqspskEval vals strong pos = valueDraw :=
  kqspsk_draw_of_lowforce vals strong pos h

/-- White Ka1 with queens c3 and d5 against the bare black king on h8. -/
def posC6 : Position :=
  { pawns := wbL [] [], queens := wbL [18, 35] [], bishops := wbL [] [],
    knights := wbL [] [], rooks := wbL [] [], kingSq := wbS 0 63,
    sideToMove := .white, hasLegalMoves := true }

/-- Witness for C6: exactly two queens and no pawns versus a bare king is
classified KQsPsK and evaluates to the draw value. -/
theorem c6_kqspsk_lowforce_draw_w :
    is_KQsPsK (materialKey posC6) .white = true ∧
    posCount posC6 .white .queen = 2 ∧ posCount posC6 .white .pawn = 0 ∧
    kqspskEval testVals .white posC6 = valueDraw :=
  ⟨by decide, by decide, by decide,
   c6_kqspsk_lowforce_draw testVals .white posC6 (by decide) (by decide)⟩

/-- C7: for every KXK-classified position whose strong side has three or more
queens all standing on squares of one color and no rooks, knights or bishops,
the KXK evaluator returns exactly the draw value (on both the stalemate path
and the same-colored-queens override path). -/
theorem c7_kxk_samecolor_queens_draw (vals : Vals) (strong : Color) (pos : Position)
    (_hkxk : is_KXK vals (materialKey pos) strong = true)
    (hq : 3 ≤ posCount pos strong .queen)
    (hr : posCount pos strong .rook = 0)
    (hn : posCount pos strong .knight = 0)
    (hb : posCount pos strong .bishop = 0)
    (hcol : (pos.queens strong).any isDark = false
        ∨ (pos.queens strong).any (fun s => !isDark s) = false) :
    kxkEval vals strong pos = valueDraw := by
  simp only [kxkEval]
  by_cases hst : pos.sideToMove = strong.opp ∧ pos.hasLegalMoves = false
  · rw [if_pos hst]
  · rw [if_neg hst]
    rw [if_pos ⟨hq, hr, hn, hb, hcol⟩]

/-- White Kb2 with three dark-squared queens a1, c1, e1 against the bare
black king on h8. -/
def posC7 : Position :=
  { pawns := wbL [] [], queens := wbL [0, 2, 4] [], bishops := wbL [] [],
    knights := wbL [] [], rooks := wbL [] [], kingSq := wbS 9 63,
    sideToMove := .white, hasLegalMoves := true }

/-- Witness for C7: three same-colored queens versus a bare king satisfy the
KXK classifier and evaluate to the draw value. -/
theorem c7_kxk_samecolor_queens_draw_w :
    is_KXK testVals (materialKey posC7) .white = true ∧
    kxkEval testVals .white posC7 = valueDraw :=
  ⟨by decide,
   c7_kxk_samecolor_queens_draw testVals .white posC7 (by decide) (by decide)
     (by decide) (by decide) (by decide) (Or.inr (by decide))⟩

/-- The score computed by Endgame-KNQK- on the in-range smothering path: the
known-win bonus plus king closeness, queen-corner drive, and the knight and
queen proximity addenda. -/
def knqkWinFormula (vals : Vals) (strong : Color) (pos : Position) : Int :=
  vals.knownWin + (pushCloseN (dist (knqkWK pos strong) (knqkLK pos strong)) : Int)
    + (pushToQueenCornersN (knqkLK pos strong) : Int)
    + (pushCloseN (dist (knqkNK pos strong) (knqkWK pos strong)) / 2 : Nat)
    + (pushToCornersN (knqkLK pos strong) : Int)
    + (pushCloseN (dist (squareD pos strong .queen) (knqkWK pos strong)) / 2 : Nat)
    + (pushToQueenCornersN (if oppositeColors (squareD pos strong .queen) sqA1
        then flipS (knqkLK pos strong) else knqkLK pos strong) : Int)

/-- C8 (amended): in the KNQK evaluator, after orientation normalization, a
weak king at Chebyshev distance 4 or more from both target corners yields
exactly the king-closeness term alone (no win bonus, and no side-to-move
negation); otherwise — the weak king within distance 3 of a target corner —
when the smothering condition holds (own king within 4 of the selected
corner, and the knight attacks a square the weak king also attacks) the
result is the full formula including the large known-win bonus. -/
theorem c8_knqk_corner_gate (vals : Vals) (strong : Color) (pos : Position)
    (hn : posCount pos strong .knight = 1)
    (hq : posCount pos strong .queen = 1) :
    ((4 ≤ dist sqA1 (knqkLK pos strong) ∧ 4 ≤ dist sqH8 (knqkLK pos strong)) →
      knqkEval vals strong pos
        = (pushCloseN (dist (knqkWK pos strong) (knqkLK pos strong)) : Int)) ∧
    (¬(4 ≤ dist sqA1 (knqkLK pos strong) ∧ 4 ≤ dist sqH8 (knqkLK pos strong)) →
      dist (knqkWK pos strong)
          (if dist sqA1 (knqkLK pos strong) < 4 then sqA1 else sqH8) ≤ 4 →
      jointKingKnight (knqkLK pos strong) (knqkNK pos strong) = true →
      knqkEval vals strong pos
        = (if pos.sideToMove = strong then knqkWinFormula vals strong pos
           else -knqkWinFormula vals strong pos)) := by
  constructor
  · intro hgate
    have hg : (decide (4 ≤ dist sqA1 (knqkLK pos strong))
        && decide (4 ≤ dist sqH8 (knqkLK pos strong))) = true := by
      simp [hgate.1, hgate.2]
    simp only [knqkEval]
    rw [if_pos hg]
  · intro hgate hnear hjoint
    have hg : ¬ ((decide (4 ≤ dist sqA1 (knqkLK pos strong))
        && decide (4 ≤ dist sqH8 (knqkLK pos strong))) = true) := by
      simpa using hgate
    have hwin : (decide (dist (knqkWK pos strong)
          (if dist sqA1 (knqkLK pos strong) < 4 then sqA1 else sqH8) ≤ 4)
        && jointKingKnight (knqkLK pos strong) (knqkNK pos strong)) = true := by
      simp [hnear, hjoint]
    have hn0 : posCount pos strong .knight ≠ 0 := by omega
    have hq0 : posCount pos strong .queen ≠ 0 := by omega
    simp only [knqkEval]
    rw [if_neg hg, if_pos hwin, if_pos hn0, if_pos hq0]
    rfl

/-- KNQK counterexample configuration: white Ke5, Nc3, Qd2 (dark queen, no
orientation flip) versus the black king on e1, which is at distance exactly 4
from corner a1 and 7 from h8. -/
def posC8x : Position :=
  { pawns := wbL [] [], queens := wbL [11] [], bishops := wbL [] [],
    knights := wbL [18] [], rooks := wbL [] [], kingSq := wbS 36 4,
    sideToMove := .white, hasLegalMoves := true }

/-- C8 counterexample: the weak king is not farther than 4 from both target
corners (distance exactly 4 from a1), and the smothering condition of the
claim holds, yet the evaluator returns only the closeness term 60 — far
below the known-win bonus the claim promises, because the source gates on
distance at least 4, not greater than 4. -/
theorem c8_knqk_corner_gate_cx :
    ¬(4 < dist sqA1 (knqkLK posC8x .white) ∧ 4 < dist sqH8 (knqkLK posC8x .white)) ∧
    dist (knqkWK posC8x .white)
        (if dist sqA1 (knqkLK posC8x .white) < 4 then sqA1 else sqH8) ≤ 4 ∧
    jointKingKnight (knqkLK posC8x .white) (knqkNK posC8x .white) = true ∧
    knqkEval testVals .white posC8x = 60 ∧
    (60 : Int) < testVals.knownWin := by
  refine ⟨by decide, by decide, by decide, by decide, by decide⟩

/-- KNQK witness configuration: white Kc3, Nd3, Qe1 (dark queen) versus the
black king on b1, within the corner zone with the smothering condition
satisfied. -/
def posC8w : Position :=
  { pawns := wbL [] [], queens := wbL [4] [], bishops := wbL [] [],
    knights := wbL [19] [], rooks := wbL [] [], kingSq := wbS 18 1,
    sideToMove := .white, hasLegalMoves := true }

/-- Witness for C8: both branches of the amended claim at concrete inputs —
the out-of-range side at posC8x and the smothering side at posC8w. -/
theorem c8_knqk_corner_gate_w :
    knqkEval testVals .white posC8x
      = (pushCloseN (dist (knqkWK posC8x .white) (knqkLK posC8x .white)) : Int) ∧
    knqkEval testVals .white posC8w
      = (if posC8w.sideToMove = .white then knqkWinFormula testVals .white posC8w
         else -knqkWinFormula testVals .white posC8w) :=
  ⟨(c8_knqk_corner_gate testVals .white posC8x (by decide) (by decide)).1
     (by decide),
   (c8_knqk_corner_gate testVals .white posC8w (by decide) (by decide)).2
     (by decide) (by decide) (by decide)⟩

/-- When the registry misses, both KXK tests fail and the KQsPsK classifier
fires for white, the pipeline runs the KQsPsK evaluator; with fewer than
three queens plus pawns it returns the draw value. -/
theorem evaluate_kqspsk_white (vals : Vals) (pos : Position) (X : SideCount)
    (hk : materialKey pos = ⟨X, bareSide⟩)
    (hreg : registryValue ⟨X, bareSide⟩ = none)
    (hkxkW : is_KXK vals ⟨X, bareSide⟩ .white = false)
    (hkxkB : is_KXK vals ⟨X, bareSide⟩ .black = false)
    (hqpsW : is_KQsPsK ⟨X, bareSide⟩ .white = true)
    (hlow : X.queen + X.pawn < 3) :
    evaluate vals pos = valueDraw := by
  have hq : posCount pos .white .queen = X.queen :=
    congrArg SideCount.queen (congrArg MatComp.w hk)
  have hp : posCount pos .white .pawn = X.pawn :=
    congrArg SideCount.pawn (congrArg MatComp.w hk)
  unfold evaluate
  rw [hk]
  simp only [entryOfComp, classifyEval, hreg, hkxkW, hkxkB, hqpsW,
    Bool.false_eq_true, if_false, if_true]
  exact kqspsk_draw_of_lowforce vals .white pos (by omega)

/-- The mirrored form of evaluate_kqspsk_white for a black strong side. -/
theorem evaluate_kqspsk_black (vals : Vals) (pos : Position) (X : SideCount)
    (hk : materialKey pos = ⟨bareSide, X⟩)
    (hreg : registryValue ⟨bareSide, X⟩ = none)
    (hkxkW : is_KXK vals ⟨bareSide, X⟩ .white = false)
    (hkxkB : is_KXK vals ⟨bareSide, X⟩ .black = false)
    (hqpsW : is_KQsPsK ⟨bareSide, X⟩ .white = false)
    (hqpsB : is_KQsPsK ⟨bareSide, X⟩ .black = true)
    (hlow : X.queen + X.pawn < 3) :
    evaluate vals pos = valueDraw := by
  have hq : posCount pos .black .queen = X.queen :=
    congrArg SideCount.queen (congrArg MatComp.b hk)
  have hp : posCount pos .black .pawn = X.pawn :=
    congrArg SideCount.pawn (congrArg MatComp.b hk)
  unfold evaluate
  rw [hk]
  simp only [entryOfComp, classifyEval, hreg, hkxkW, hkxkB, hqpsW, hqpsB,
    Bool.false_eq_true, if_false, if_true]
  exact kqspsk_draw_of_lowforce vals .black pos (by omega)

/-- C5 (amended): every named pattern of the trivial-draw set — two knights,
knight, bishop, or two queens versus a bare king (registered constant-draw
evaluators), and queen+pawn, two pawns, queen, or pawn versus a bare king
(low-force KQsPsK draws) — evaluates to exactly the draw value through the
probe/evaluator pipeline, for arbitrary square placements and either side to
move; single-minor-versus-single-minor patterns are not part of the set. -/
theorem c5_trivial_draws (vals : Vals) (pos : Position) (c : Color)
    (h1 : 0 < vals.bishopEg + vals.queenEg)
    (h2 : vals.queenMg < vals.bishopEg + vals.queenEg)
    (hbare : sideCountOf pos c.opp = bareSide)
    (hpat : sideCountOf pos c = ⟨0, 0, 0, 2, 0, 1⟩
          ∨ sideCountOf pos c = ⟨0, 0, 0, 1, 0, 1⟩
          ∨ sideCountOf pos c = ⟨0, 0, 1, 0, 0, 1⟩
          ∨ sideCountOf pos c = ⟨0, 2, 0, 0, 0, 1⟩
          ∨ sideCountOf pos c = ⟨1, 1, 0, 0, 0, 1⟩
          ∨ sideCountOf pos c = ⟨2, 0, 0, 0, 0, 1⟩
          ∨ sideCountOf pos c = ⟨0, 1, 0, 0, 0, 1⟩
          ∨ sideCountOf pos c = ⟨1, 0, 0, 0, 0, 1⟩) :
    evaluate vals pos = valueDraw := by
  cases c with
  | white =>
    simp only [Color.opp] at hbare
    rcases hpat with hx | hx | hx | hx | hx | hx | hx | hx
    · have hk : materialKey pos = ⟨⟨0, 0, 0, 2, 0, 1⟩, bareSide⟩ := by
        unfold materialKey
        rw [hx, hbare]
      unfold evaluate
      rw [hk]
      rfl
    · have hk : materialKey pos = ⟨⟨0, 0, 0, 1, 0, 1⟩, bareSide⟩ := by
        unfold materialKey
        rw [hx, hbare]
      unfold evaluate
      rw [hk]
      rfl
    · have hk : materialKey pos = ⟨⟨0, 0, 1, 0, 0, 1⟩, bareSide⟩ := by
        unfold materialKey
        rw [hx, hbare]
      unfold evaluate
      rw [hk]
      rfl
    · have hk : materialKey pos = ⟨⟨0, 2, 0, 0, 0, 1⟩, bareSide⟩ := by
        unfold materialKey
        rw [hx, hbare]
      unfold evaluate
      rw [hk]
      rfl
    · have hk : materialKey pos = ⟨⟨1, 1, 0, 0, 0, 1⟩, bareSide⟩ := by
        unfold materialKey
        rw [hx, hbare]
      exact evaluate_kqspsk_white vals pos ⟨1, 1, 0, 0, 0, 1⟩ hk (by decide)
        (by simp only [is_KXK, npmS, totalS, MatComp.side, bareSide, Color.opp]
            simp
            omega)
        rfl rfl (by decide)
    · have hk : materialKey pos = ⟨⟨2, 0, 0, 0, 0, 1⟩, bareSide⟩ := by
        unfold materialKey
        rw [hx, hbare]
      exact evaluate_kqspsk_white vals pos ⟨2, 0, 0, 0, 0, 1⟩ hk (by decide)
        (by simp only [is_KXK, npmS, totalS, MatComp.side, bareSide, Color.opp]
            simp
            omega)
        rfl rfl (by decide)
    · have hk : materialKey pos = ⟨⟨0, 1, 0, 0, 0, 1⟩, bareSide⟩ := by
        unfold materialKey
        rw [hx, hbare]
      exact evaluate_kqspsk_white vals pos ⟨0, 1, 0, 0, 0, 1⟩ hk (by decide)
        (by simp only [is_KXK, npmS, totalS, MatComp.side, bareSide, Color.opp]
            simp
            omega)
        rfl rfl (by decide)
    · have hk : materialKey pos = ⟨⟨1, 0, 0, 0, 0, 1⟩, bareSide⟩ := by
        unfold materialKey
        rw [hx, hbare]
      exact evaluate_kqspsk_white vals pos ⟨1, 0, 0, 0, 0, 1⟩ hk (by decide)
        (by simp only [is_KXK, npmS, totalS, MatComp.side, bareSide, Color.opp]
            simp
            omega)
        rfl rfl (by decide)
  | black =>
    simp only [Color.opp] at hbare
    rcases hpat with hx | hx | hx | hx | hx | hx | hx | hx
    · have hk : materialKey pos = ⟨bareSide, ⟨0, 0, 0, 2, 0, 1⟩⟩ := by
        unfold materialKey
        rw [hx, hbare]
      unfold evaluate
      rw [hk]
      rfl
    · have hk : materialKey pos = ⟨bareSide, ⟨0, 0, 0, 1, 0, 1⟩⟩ := by
        unfold materialKey
        rw [hx, hbare]
      unfold evaluate
      rw [hk]
      rfl
    · have hk : materialKey pos = ⟨bareSide, ⟨0, 0, 1, 0, 0, 1⟩⟩ := by
        unfold materialKey
        rw [hx, hbare]
      unfold evaluate
      rw [hk]
      rfl
    · have hk : materialKey pos = ⟨bareSide, ⟨0, 2, 0, 0, 0, 1⟩⟩ := by
        unfold materialKey
        rw [hx, hbare]
      unfold evaluate
      rw [hk]
      rfl
    · have hk : materialKey pos = ⟨bareSide, ⟨1, 1, 0, 0, 0, 1⟩⟩ := by
        unfold materialKey
        rw [hx, hbare]
      exact evaluate_kqspsk_black vals pos ⟨1, 1, 0, 0, 0, 1⟩ hk (by decide) rfl
        (by simp only [is_KXK, npmS, totalS, MatComp.side, bareSide, Color.opp]
            simp
            omega)
        rfl rfl (by decide)
    · have hk : materialKey pos = ⟨bareSide, ⟨2, 0, 0, 0, 0, 1⟩⟩ := by
        unfold materialKey
        rw [hx, hbare]
      exact evaluate_kqspsk_black vals pos ⟨2, 0, 0, 0, 0, 1⟩ hk (by decide) rfl
        (by simp only [is_KXK, npmS, totalS, MatComp.side, bareSide, Color.opp]
            simp
            omega)
        rfl rfl (by decide)
    · have hk : materialKey pos = ⟨bareSide, ⟨0, 1, 0, 0, 0, 1⟩⟩ := by
        unfold materialKey
        rw [hx, hbare]
      exact evaluate_kqspsk_black vals pos ⟨0, 1, 0, 0, 0, 1⟩ hk (by decide) rfl
        (by simp only [is_KXK, npmS, totalS, MatComp.side, bareSide, Color.opp]
            simp
            omega)
        rfl rfl (by decide)
    · have hk : materialKey pos = ⟨bareSide, ⟨1, 0, 0, 0, 0, 1⟩⟩ := by
        unfold materialKey
        rw [hx, hbare]
      exact evaluate_kqspsk_black vals pos ⟨1, 0, 0, 0, 0, 1⟩ hk (by decide) rfl
        (by simp only [is_KXK, npmS, totalS, MatComp.side, bareSide, Color.opp]
            simp
            omega)
        rfl rfl (by decide)

/-- Knight versus bishop: white Ke1, Nd4 against black Ke8, Bd5 — a
single-minor-versus-single-minor composition. -/
def posKNKB : Position :=
  { pawns := wbL [] [], queens := wbL [] [], bishops := wbL [] [35],
    knights := wbL [27] [], rooks := wbL [] [], kingSq := wbS 4 60,
    sideToMove := .white, hasLegalMoves := true }

/-- C5 counterexample: the single-minor-versus-single-minor pattern knight
versus bishop is not a registered trivial draw — no evaluator is attached and
the imbalance fallback yields 9, not the draw value. -/
theorem c5_trivial_draws_cx :
    (entryOfComp testVals (materialKey posKNKB)).evaluationFunction = none ∧
    evaluate testVals posKNKB = 9 ∧
    evaluate testVals posKNKB ≠ valueDraw := by
  refine ⟨by decide, by decide, by decide⟩

/-- Knight versus bare king: white Ke1, Nd4 against black Ke8. -/
def posKNK : Position :=
  { pawns := wbL [] [], queens := wbL [] [], bishops := wbL [] [],
    knights := wbL [27] [], rooks := wbL [] [], kingSq := wbS 4 60,
    sideToMove := .black, hasLegalMoves := true }

/-- Witness for C5 at the knight-versus-king pattern. -/
theorem c5_trivial_draws_w : evaluate testVals posKNK = valueDraw :=
  c5_trivial_draws testVals posKNK .white (by decide) (by decide) (by decide)
    (Or.inr (Or.inl (by decide)))

/-- The king-and-rook versus king-and-knight composition with the rook on the
c side. -/
def rookSide : SideCount := ⟨0, 0, 0, 0, 1, 1⟩

def knightSide : SideCount := ⟨0, 0, 0, 1, 0, 1⟩

/-- C9 (amended): the subsystem provides no rook-vs-knight evaluator — the
registry registers only the six signatures KNNK, KNK, KBK, KQQK, KBQK, KNQK,
none matching rook versus knight, and (for piece values whose rook/knight
difference stays below the bishop+queen threshold) no classifier predicate
fires either, so a rook-vs-knight position falls through to the imbalance
fallback instead of scoring edge-push plus away-push. -/
theorem c9_no_rook_vs_knight (vals : Vals) (k : MatComp) (c : Color)
    (hrk : k.side c = rookSide)
    (hkn : k.side c.opp = knightSide)
    (h1 : vals.rookMg - vals.knightMg < vals.bishopEg + vals.queenEg)
    (h2 : vals.knightMg - vals.rookMg < vals.bishopEg + vals.queenEg) :
    registryValue k = none ∧
    (entryOfComp vals k).evaluationFunction = none ∧
    (entryOfComp vals k).value
      = i16 (Int.tdiv (imbalance k .white - imbalance k .black) 16) := by
  have hkk : k = ⟨k.side .white, k.side .black⟩ := by
    cases k
    rfl
  have hcase : k = ⟨rookSide, knightSide⟩ ∨ k = ⟨knightSide, rookSide⟩ := by
    cases c with
    | white =>
      simp only [Color.opp] at hkn
      exact Or.inl (by rw [hkk, hrk, hkn])
    | black =>
      simp only [Color.opp] at hkn
      exact Or.inr (by rw [hkk, hkn, hrk])
  rcases hcase with hkR | hkR
  all_goals subst hkR
  · have e3 : is_KXKQ vals ⟨rookSide, knightSide⟩ .white = false := by
      simp [is_KXKQ, MatComp.side, rookSide, knightSide, Color.opp]
    have e4 : is_KXKQ vals ⟨rookSide, knightSide⟩ .black = false := by
      simp [is_KXKQ, MatComp.side, rookSide, knightSide, Color.opp]
    have e5 : is_KXKB vals ⟨rookSide, knightSide⟩ .white = false := by
      simp [is_KXKB, MatComp.side, rookSide, knightSide, Color.opp]
    have e6 : is_KXKB vals ⟨rookSide, knightSide⟩ .black = false := by
      simp [is_KXKB, MatComp.side, rookSide, knightSide, Color.opp]
    have e7 : is_KXKN vals ⟨rookSide, knightSide⟩ .white = false := by
      simp [is_KXKN, npmS, MatComp.side, rookSide, knightSide, Color.opp]
      omega
    have e8 : is_KXKN vals ⟨rookSide, knightSide⟩ .black = false := by
      simp [is_KXKN, MatComp.side, rookSide, knightSide, Color.opp]
    have e9 : is_KXKR vals ⟨rookSide, knightSide⟩ .white = false := by
      simp [is_KXKR, MatComp.side, rookSide, knightSide, Color.opp]
    have e10 : is_KXKR vals ⟨rookSide, knightSide⟩ .black = false := by
      simp [is_KXKR, npmS, MatComp.side, rookSide, knightSide, Color.opp]
      omega
    have hcls : classifyEval vals ⟨rookSide, knightSide⟩ = none := by
      simp only [classifyEval, show registryValue ⟨rookSide, knightSide⟩ = none from by decide,
        show is_KXK vals ⟨rookSide, knightSide⟩ .white = false from rfl,
        show is_KXK vals ⟨rookSide, knightSide⟩ .black = false from rfl,
        show is_KQsPsK ⟨rookSide, knightSide⟩ .white = false from rfl,
        show is_KQsPsK ⟨rookSide, knightSide⟩ .black = false from rfl,
        show is_KXKP vals ⟨rookSide, knightSide⟩ .white = false from rfl,
        show is_KXKP vals ⟨rookSide, knightSide⟩ .black = false from rfl,
        e3, e4, e5, e6, e7, e8, e9, e10, Bool.false_eq_true, if_false]
    have hEntry : entryOfComp vals ⟨rookSide, knightSide⟩
        = { baseEntry vals ⟨rookSide, knightSide⟩ with
            value := i16 (Int.tdiv (imbalance ⟨rookSide, knightSide⟩ .white
              - imbalance ⟨rookSide, knightSide⟩ .black) 16) } := by
      unfold entryOfComp
      rw [hcls]
      rfl
    exact ⟨by decide, by rw [hEntry]; rfl, by rw [hEntry]⟩
  · have e3 : is_KXKQ vals ⟨knightSide, rookSide⟩ .white = false := by
      simp [is_KXKQ, MatComp.side, rookSide, knightSide, Color.opp]
    have e4 : is_KXKQ vals ⟨knightSide, rookSide⟩ .black = false := by
      simp [is_KXKQ, MatComp.side, rookSide, knightSide, Color.opp]
    have e5 : is_KXKB vals ⟨knightSide, rookSide⟩ .white = false := by
      simp [is_KXKB, MatComp.side, rookSide, knightSide, Color.opp]
    have e6 : is_KXKB vals ⟨knightSide, rookSide⟩ .black = false := by
      simp [is_KXKB, MatComp.side, rookSide, knightSide, Color.opp]
    have e7 : is_KXKN vals ⟨knightSide, rookSide⟩ .white = false := by
      simp [is_KXKN, MatComp.side, rookSide, knightSide, Color.opp]
    have e8 : is_KXKN vals ⟨knightSide, rookSide⟩ .black = false := by
      simp [is_KXKN, npmS, MatComp.side, rookSide, knightSide, Color.opp]
      omega
    have e9 : is_KXKR vals ⟨knightSide, rookSide⟩ .white = false := by
      simp [is_KXKR, npmS, MatComp.side, rookSide, knightSide, Color.opp]
      omega
    have e10 : is_KXKR vals ⟨knightSide, rookSide⟩ .black = false := by
      simp [is_KXKR, MatComp.side, rookSide, knightSide, Color.opp]
    have hcls : classifyEval vals ⟨knightSide, rookSide⟩ = none := by
      simp only [classifyEval, show registryValue ⟨knightSide, rookSide⟩ = none from by decide,
        show is_KXK vals ⟨knightSide, rookSide⟩ .white = false from rfl,
        show is_KXK vals ⟨knightSide, rookSide⟩ .black = false from rfl,
        show is_KQsPsK ⟨knightSide, rookSide⟩ .white = false from rfl,
        show is_KQsPsK ⟨knightSide, rookSide⟩ .black = false from rfl,
        show is_KXKP vals ⟨knightSide, rookSide⟩ .white = false from rfl,
        show is_KXKP vals ⟨knightSide, rookSide⟩ .black = false from rfl,
        e3, e4, e5, e6, e7, e8, e9, e10, Bool.false_eq_true, if_false]
    have hEntry : entryOfComp vals ⟨knightSide, rookSide⟩
        = { baseEntry vals ⟨knightSide, rookSide⟩ with
            value := i16 (Int.tdiv (imbalance ⟨knightSide, rookSide⟩ .white
              - imbalance ⟨knightSide, rookSide⟩ .black) 16) } := by
      unfold entryOfComp
      rw [hcls]
      rfl
    exact ⟨by decide, by rw [hEntry]; rfl, by rw [hEntry]⟩

/-- White Ka1 and Rb2 against black Kh8 and Ng6: a rook-vs-knight position. -/
def posC9 : Position :=
  { pawns := wbL [] [], queens := wbL [] [], bishops := wbL [] [],
    knights := wbL [] [46], rooks := wbL [9] [], kingSq := wbS 0 63,
    sideToMove := .white, hasLegalMoves := true }

/-- C9 counterexample: for the rook-vs-knight position the registry misses,
no evaluator is attached, and the pipeline value is the imbalance fallback 5
— not the claimed edge-push(weak king) + away-push(king-knight distance),
which here is 100 + 20 = 120. -/
theorem c9_no_rook_vs_knight_cx :
    registryValue (materialKey posC9) = none ∧
    (entryOfComp testVals (materialKey posC9)).evaluationFunction = none ∧
    evaluate testVals posC9 = 5 ∧
    (pushToEdgesN (posC9.kingSq .black) : Int)
        + (pushAwayN (dist (posC9.kingSq .black) (squareD posC9 .black .knight)) : Int)
      = 120 ∧
    evaluate testVals posC9
      ≠ (pushToEdgesN (posC9.kingSq .black) : Int)
        + (pushAwayN (dist (posC9.kingSq .black) (squareD posC9 .black .knight)) : Int) := by
  refine ⟨by decide, by decide, by decide, by decide, by decide⟩

/-- Witness for C9 at the concrete rook-vs-knight composition and values. -/
theorem c9_no_rook_vs_knight_w :
    registryValue (materialKey posC9) = none ∧
    (entryOfComp testVals (materialKey posC9)).evaluationFunction = none :=
  ⟨(c9_no_rook_vs_knight testVals (materialKey posC9) .white (by decide) (by decide)
      (by decide) (by decide)).1,
   (c9_no_rook_vs_knight testVals (materialKey posC9) .white (by decide) (by decide)
      (by decide) (by decide)).2.1⟩

/-- White Ka1, Qd1, Bc1, Nb1 against black Kh8 and Ph6: the weak side has
exactly one pawn and no queen while the strong side's material lead meets
the threshold, so is_KXKP classifies it. -/
def pos10 : Position :=
  { pawns := wbL [] [47], queens := wbL [3] [], bishops := wbL [2] [],
    knights := wbL [1] [], rooks := wbL [] [], kingSq := wbS 0 63,
    sideToMove := .white, hasLegalMoves := true }

/-- C10: the KXKP pattern predicate holds at pos10, yet the KXKP evaluator's
lookup set contains a read of the weak side's queen square although the weak
side has zero queens — the lookup-safety property the claim asserts fails on
the code (Endgame-KXKP-::operator() line 254 reads
pos.square-QUEEN-(weakSide) whenever the strong side holds a queen). -/
theorem c10_kxkp_weak_queen_lookup_bug :
    is_KXKP testVals (materialKey pos10) .white = true ∧
    (Color.black, PieceType.queen) ∈ kxkpLookups pos10 .white ∧
    posCount pos10 .black .queen = 0 ∧
    lookupsOkB pos10 (kxkpLookups pos10 .white) = false := by
  refine ⟨by decide, by decide, by decide, by decide⟩

end Makruk
